import Mathlib

/-!
Verification development for the glTF decoding core of `sveltejs-gl`
(`src/internal/utils.mjs` and `src/loader/GLTFLoader.mjs`).

Modelling conventions (shallow embedding of the JavaScript source):
* JS numbers are modelled by `ℚ` (exact-real model of IEEE doubles/floats;
  rounding is not modelled, `x / 0` is `0` in `ℚ` where JS produces
  `Infinity`/`NaN` — every claim below stays inside the well-formed inputs
  where the JS arithmetic is exact and finite).
* JS typed arrays are modelled by `List ℚ` together with an element-type tag;
  storing into an integer-typed array truncates toward zero and wraps, as the
  JS `ToInt8/ToUint8/...` conversions do.
* Out-of-range reads (`undefined` in JS) are modelled by `Option`/`getD 0`
  where a claim never exercises them; operations that throw in JS are
  modelled by `Option`/`Except`.
* `Math.sqrt` (inside `vec3.normalize` of gl-matrix) is the one genuinely
  irrational operation; the normalisation layer is therefore valued in `ℝ`
  via `Real.sqrt`, everything before it is computable over `ℚ`.
-/

/-- A 3-component vector of rationals, mirroring a `vec3` of JS numbers. -/
abbrev Vec3 : Type := ℚ × ℚ × ℚ

/-- A 3-component vector of reals (used after `vec3.normalize`). -/
abbrev Vec3R : Type := ℝ × ℝ × ℝ

/-- Cast a rational vector to a real vector. -/
def ratVec (v : Vec3) : Vec3R := ((v.1 : ℝ), (v.2.1 : ℝ), (v.2.2 : ℝ))

/-- Cross product, exactly as gl-matrix `vec3.cross`:
`out = (ay*bz - az*by, az*bx - ax*bz, ax*by - ay*bx)`. -/
def cross3 (a b : Vec3) : Vec3 :=
  (a.2.1 * b.2.2 - a.2.2 * b.2.1, a.2.2 * b.1 - a.1 * b.2.2, a.1 * b.2.1 - a.2.1 * b.1)

/-- Dot product of rational 3-vectors, as gl-matrix `vec3.dot`. -/
def dot3 (a b : Vec3) : ℚ := a.1 * b.1 + a.2.1 * b.2.1 + a.2.2 * b.2.2

/-- Dot product of real 3-vectors. -/
def dot3R (a b : Vec3R) : ℝ := a.1 * b.1 + a.2.1 * b.2.1 + a.2.2 * b.2.2

/-- Read vertex `i` of a flat 3-component position buffer, as the source's
`vec3.set(p, positions[i*3], positions[i*3+1], positions[i*3+2])`.
Out-of-range reads default to `0` (the claims below only touch in-range data,
where JS would otherwise produce `NaN`). -/
def posAt (positions : List ℚ) (i : ℕ) : Vec3 :=
  (positions.getD (i * 3) 0, positions.getD (i * 3 + 1) 0, positions.getD (i * 3 + 2) 0)

/-- Read vertex `i` of a flat 2-component texcoord buffer
(`texcoords[i*2]`, `texcoords[i*2+1]`). -/
def texAt (texcoords : List ℚ) (i : ℕ) : ℚ × ℚ :=
  (texcoords.getD (i * 2) 0, texcoords.getD (i * 2 + 1) 0)

/-- gl-matrix `vec3.normalize`: `len = x*x+y*y+z*z; if (len > 0) len = 1/sqrt(len);
out = (x*len, y*len, z*len)`.  Valued in `ℝ` because of the square root. -/
noncomputable def glNormalize (v : Vec3) : Vec3R :=
  let x : ℝ := (v.1 : ℝ)
  let y : ℝ := (v.2.1 : ℝ)
  let z : ℝ := (v.2.2 : ℝ)
  let len : ℝ := x * x + y * y + z * z
  let len2 : ℝ := if len > 0 then (Real.sqrt len)⁻¹ else len
  (x * len2, y * len2, z * len2)

/-- Chunk a flat index list into triangle faces, as the source's
`for (f = 0; f < len;) { i1 = indices[f++]; i2 = indices[f++]; i3 = indices[f++]; ... }`.
A trailing run of 1–2 leftover entries (malformed face data) would make JS read
out of range and propagate `NaN`; it is dropped here, which agrees with the
source whenever the length is a multiple of 3. -/
def facesFrom : List ℕ → List (ℕ × ℕ × ℕ)
  | i1 :: i2 :: i3 :: rest => (i1, i2, i3) :: facesFrom rest
  | _ => []

/-- The index stream the face loop runs over: `indices` when the geometry has
an index buffer, otherwise the sequential vertices `0, 1, ..., vertexCount-1`
(the source sets `len = indices ? indices.length : vertexCount` and uses
`i1 = f++` in the non-indexed branch). -/
def faceIndexList (indices : Option (List ℕ)) (vertexCount : ℕ) : List ℕ :=
  match indices with
  | some is => is
  | none => List.range vertexCount

/-- One JS read-modify-write `acc[i] = acc[i] + n` on a vertex-indexed store of
vectors, modelled functionally. -/
def addAt (acc : ℕ → Vec3) (i : ℕ) (n : Vec3) : ℕ → Vec3 :=
  fun w => if w = i then acc w + n else acc w

/-- Accumulate a per-face vector `g face` into the three vertices of each face,
in face order and, within one face, in the order `i1`, `i2`, `i3` — exactly the
source's three `+=` statements (shared indices inside one face accumulate
multiple times, as in JS). -/
def accumFacesWith (g : ℕ × ℕ × ℕ → Vec3) : List (ℕ × ℕ × ℕ) → (ℕ → Vec3) → ℕ → Vec3
  | [], acc => acc
  | t :: ts, acc =>
    accumFacesWith g ts (addAt (addAt (addAt acc t.1 (g t)) t.2.1 (g t)) t.2.2 (g t))

/-- Face vector of `generateVertexNormals`:
`v21 = p1 - p2; v32 = p2 - p3; n = cross(v21, v32)`. -/
def faceNormal (positions : List ℚ) (t : ℕ × ℕ × ℕ) : Vec3 :=
  cross3 (posAt positions t.1 - posAt positions t.2.1)
    (posAt positions t.2.1 - posAt positions t.2.2)

/-- Number of occurrences of vertex `v` in face `t` (a face with repeated
indices accumulates its normal that many times into the shared vertex). -/
def occCount (v : ℕ) (t : ℕ × ℕ × ℕ) : ℕ :=
  (if v = t.1 then 1 else 0) + (if v = t.2.1 then 1 else 0) + (if v = t.2.2 then 1 else 0)

/-- The normal accumulator of `generateVertexNormals` after the face loop:
the store starts at zero (the source either allocates a fresh zeroed
`Float32Array` or explicitly resets the existing one) and every face adds its
face vector into its three vertices. -/
def vertexNormalAccum (positions : List ℚ) (indices : Option (List ℕ))
    (vertexCount : ℕ) : ℕ → Vec3 :=
  accumFacesWith (faceNormal positions) (facesFrom (faceIndexList indices vertexCount))
    (fun _ => (0, 0, 0))

/-- `generateVertexNormals` of `src/internal/utils.mjs` (lines 109–182), on the
flat data of a geometry: `positions` is `attributes.position.data`, `posCount`
is `attributes.position.count` (the components-per-vertex of the position
attribute), `indices` is `geometry.index`.  Returns `none` on the early-return
path (`!vertexCount`), otherwise the per-vertex normals written into
`attributes.normal.data`: accumulated face vectors, each vertex normalised with
gl-matrix `vec3.normalize`.  (The function's final `this.dirty()` line throws a
`TypeError` after the normals have been written — `this` is `undefined` in a
plain module-function call — which does not affect the computed values
modelled here.) -/
noncomputable def generateVertexNormals (positions : List ℚ) (posCount : ℕ)
    (indices : Option (List ℕ)) : Option (ℕ → Vec3R) :=
  let vertexCount := positions.length / posCount
  if vertexCount = 0 then none
  else some (fun v => glNormalize (vertexNormalAccum positions indices vertexCount v))

/-- JS `"str".split("/")` on the character list, splitting at every `/` and
keeping empty segments, exactly as `String.prototype.split` with a
single-character separator. -/
def splitSlashAux : List Char → List Char → List String
  | [], acc => [String.mk acc.reverse]
  | c :: cs, acc =>
    if c = '/' then String.mk acc.reverse :: splitSlashAux cs []
    else splitSlashAux cs (c :: acc)

/-- JS `path.split("/")`. -/
def splitSlash (s : String) : List String := splitSlashAux s.toList []

/-- JS `path.match(/^\//)` viewed as a Boolean: does the string start
with `/`? -/
def startsWithSlash (s : String) : Bool :=
  match s.toList with
  | c :: _ => c = '/'
  | [] => false

/-- The `while (item === "." || item === "..")` loop of `relative2absolute`:
strips leading `.` segments, and for each leading `..` segment pops one
trailing segment off the base parts (`basePathParts.pop()`); returns the
remaining path parts and the reduced base parts. -/
def stripParts : List String → List String → List String × List String
  | p :: ps, bs =>
    if p = "." then stripParts ps bs
    else if p = ".." then stripParts ps bs.dropLast
    else (p :: ps, bs)
  | [], bs => ([], bs)

/-- `relative2absolute(path, basePath)` of `src/internal/utils.mjs`
(lines 86–102): falsy base or a path matching `/^\//` passes through
unchanged; otherwise both strings are split on `/`, leading `.`/`..` segments
are consumed (popping the base for each `..`), and the two part lists are
re-joined with a single `/` in between. -/
def relative2absolute (path basePath : String) : String :=
  if basePath = "" ∨ startsWithSlash path then path
  else
    let r := stripParts (splitSlash path) (splitSlash basePath)
    String.intercalate "/" r.2 ++ "/" ++ String.intercalate "/" r.1

/-- The base64 alphabet string of `base64ToBinary`. -/
def b64chars : List Char :=
  "ABCDEFGHIJKLMNOPQRSTUVWXYZabcdefghijklmnopqrstuvwxyz0123456789+/".toList

/-- The `lookup` table of `base64ToBinary`: a `Uint8Array(130)` with
`lookup[chars.charCodeAt(i)] = i`; unknown codes read `0` (either the zeroed
table entry or, past index 129, `undefined`, which the JS shifts coerce
to `0`). -/
def b64lookup (code : ℕ) : ℕ :=
  match b64chars.findIdx? (fun c => c.toNat = code) with
  | some i => i
  | none => 0

/-- `input.charCodeAt(j)` routed through the lookup table; an out-of-range
read gives `NaN`, whose table read is `undefined`, which the bit operations
coerce to `0`. -/
def b64at (input : List Char) (j : ℕ) : ℕ :=
  match input.get? j with
  | some c => b64lookup c.toNat
  | none => 0

/-- One quartet of the decode loop starting at character index `j`:
`byte0 = (c1 << 2) | (c2 >> 4); byte1 = ((c2 & 15) << 4) | (c3 >> 2);
byte2 = ((c3 & 3) << 6) | c4`. -/
def b64quartet (input : List Char) (j : ℕ) : List ℕ :=
  let c1 := b64at input j
  let c2 := b64at input (j + 1)
  let c3 := b64at input (j + 2)
  let c4 := b64at input (j + 3)
  [(c1 <<< 2) ||| (c2 >>> 4), ((c2 &&& 15) <<< 4) ||| (c3 >>> 2), ((c3 &&& 3) <<< 6) ||| c4]

/-- `base64ToBinary(input, charStart)` of `src/internal/utils.mjs`
(lines 52–77).  `len` starts at `input.length - charStart` and is decremented
for each of up to two `=` found at `input.charAt(len - 1)` — note: an index
into the WHOLE string, not into its tail starting at `charStart`.  The output
`Uint8Array` has `(len / 4) * 3` entries (JS float division truncated by
`ToIndex`, i.e. `3 * len / 4` rounded down); the loop decodes a quartet per
iteration and JS silently discards writes past the end of the typed array,
modelled by `List.take`. -/
def base64ToBinary (input : List Char) (charStart : ℕ) : List ℕ :=
  let len0 := input.length - charStart
  let len1 := if input.get? (len0 - 1) = some '=' ∧ len0 ≠ 0 then len0 - 1 else len0
  let len2 := if input.get? (len1 - 1) = some '=' ∧ len1 ≠ 0 then len1 - 1 else len1
  let outLen := 3 * len2 / 4
  let quartets := (outLen + 2) / 3
  ((List.range quartets).flatMap (fun q => b64quartet input (charStart + 4 * q))).take outLen

example : relative2absolute "./a.png" "models" = "models/a.png" := by decide
example : relative2absolute "../tex/a.png" "models/scene" = "models/tex/a.png" := by decide
example : relative2absolute "/abs/a.png" "models" = "/abs/a.png" := by decide
example : base64ToBinary "QQ==".toList 0 = [65] := by decide
example :
    base64ToBinary "data:application/octet-stream;base64,QQ==".toList 37 = [65, 0, 0] := by
  decide

/-- Element types of the JS typed-array constructors in `ARRAY_CTOR_MAP`. -/
inductive EType
  | int8
  | uint8
  | int16
  | uint16
  | uint32
  | float32
  deriving DecidableEq

/-- JS number-to-integer truncation toward zero (the first step of
`ToInt8/ToUint8/...`). -/
def jsTrunc (q : ℚ) : ℤ := if 0 ≤ q then ⌊q⌋ else ⌈q⌉

/-- Wrap an integer into `[0, 2^bits)` (JS `ToUint8/ToUint16/ToUint32`). -/
def wrapUnsigned (bits : ℕ) (z : ℤ) : ℕ := (z % (2 ^ bits : ℤ)).toNat

/-- Wrap an integer into `[-2^(bits-1), 2^(bits-1))` (JS `ToInt8/ToInt16`). -/
def wrapSigned (bits : ℕ) (z : ℤ) : ℤ :=
  let u := z % (2 ^ bits : ℤ)
  if u ≥ 2 ^ (bits - 1) then u - 2 ^ bits else u

/-- Storing a JS number into a typed array coerces it to the array's element
type; `Float32Array` stores are the identity in the exact-real model. -/
def storeCoerce : EType → ℚ → ℚ
  | .int8, q => (wrapSigned 8 (jsTrunc q) : ℚ)
  | .uint8, q => (wrapUnsigned 8 (jsTrunc q) : ℚ)
  | .int16, q => (wrapSigned 16 (jsTrunc q) : ℚ)
  | .uint16, q => (wrapUnsigned 16 (jsTrunc q) : ℚ)
  | .uint32, q => (wrapUnsigned 32 (jsTrunc q) : ℚ)
  | .float32, q => q

/-- `ARRAY_CTOR_MAP[componentType] || Float32Array`, as a map from the glTF
componentType code to the element type. -/
def arrayCtorOf (componentType : ℕ) : EType :=
  if componentType = 5120 then .int8
  else if componentType = 5121 then .uint8
  else if componentType = 5122 then .int16
  else if componentType = 5123 then .uint16
  else if componentType = 5125 then .uint32
  else if componentType = 5126 then .float32
  else .float32

/-- Bytes per element of each element type (`BYTES_PER_ELEMENT`). -/
def bytesPerElement : EType → ℕ
  | .int8 => 1
  | .uint8 => 1
  | .int16 => 2
  | .uint16 => 2
  | .uint32 => 4
  | .float32 => 4

/-- Read `n` bytes little-endian as an unsigned integer, starting at byte
offset `off` of a raw buffer. -/
def readBytesLE (bytes : List ℕ) (off : ℕ) : ℕ → ℕ
  | 0 => 0
  | n + 1 => bytes.getD off 0 + 256 * readBytesLE bytes (off + 1) n

/-- Reinterpret an unsigned `bits`-wide integer as two's-complement signed. -/
def decodeSigned (bits : ℕ) (u : ℕ) : ℤ :=
  if u < 2 ^ (bits - 1) then (u : ℤ) else (u : ℤ) - 2 ^ bits

/-- Value of an IEEE-754 binary32 bit pattern as an exact rational.
NaN and the infinities (exponent 255) are not rational; they are mapped to
`0` and never arise in the claims below. -/
def decodeF32 (u : ℕ) : ℚ :=
  let s : ℕ := u / 2 ^ 31
  let e : ℕ := u / 2 ^ 23 % 2 ^ 8
  let f : ℕ := u % 2 ^ 23
  let sgn : ℚ := if s = 1 then -1 else 1
  if e = 255 then 0
  else if e = 0 then sgn * (f : ℚ) / 2 ^ 149
  else sgn * ((2 ^ 23 + f : ℕ) : ℚ) * (2 : ℚ) ^ ((e : ℤ) - 150)

/-- Read element `i = 0` of a typed view at absolute byte offset `off`:
the little-endian bytes reinterpreted per element type. -/
def readElem (et : EType) (bytes : List ℕ) (off : ℕ) : ℚ :=
  match et with
  | .int8 => (decodeSigned 8 (readBytesLE bytes off 1) : ℚ)
  | .uint8 => (readBytesLE bytes off 1 : ℚ)
  | .int16 => (decodeSigned 16 (readBytesLE bytes off 2) : ℚ)
  | .uint16 => (readBytesLE bytes off 2 : ℚ)
  | .uint32 => (readBytesLE bytes off 4 : ℚ)
  | .float32 => decodeF32 (readBytesLE bytes off 4)

/-- `new ArrayCtor(buffer, byteOffset, len)`: a typed view of `len` elements
over the buffer's bytes.  JS throws a `RangeError` when the byte offset is not
aligned to the element size or the view runs past the end of the buffer;
both are modelled by `none`. -/
def typedArray (et : EType) (bytes : List ℕ) (byteOffset len : ℕ) : Option (List ℚ) :=
  if byteOffset % bytesPerElement et ≠ 0 then none
  else if bytes.length < byteOffset + len * bytesPerElement et then none
  else some ((List.range len).map fun i => readElem et bytes (byteOffset + i * bytesPerElement et))

/-- `SIZE_MAP`: component count of each glTF accessor `type`. -/
def sizeMap (t : String) : Option ℕ :=
  [("SCALAR", 1), ("VEC2", 2), ("VEC3", 3), ("VEC4", 4),
   ("MAT2", 4), ("MAT3", 9), ("MAT4", 16)].lookup t

/-- One entry of `gltfInfo.accessors`.  `byteOffset` is the JS
`accessorInfo.byteOffset || 0`; `type` is the optional `SCALAR..MAT4` string;
`quantizeDecodeMatrix` is
`accessorInfo.extensions[WEB3D_quantized_attributes].decodeMatrix` when the
extension is present; `minVals`/`maxVals` are the optional `min`/`max`
metadata arrays. -/
structure AccessorInfo where
  bufferView : ℕ
  byteOffset : ℕ
  componentType : ℕ
  type : Option String
  count : ℕ
  quantizeDecodeMatrix : Option (List ℚ)
  minVals : Option (List ℚ)
  maxVals : Option (List ℚ)
  deriving DecidableEq

/-- `GLTFLoader._getAccessorData(gltfInfo, lib, accessorIdx, isIndices)`
(`src/loader/GLTFLoader.mjs` lines 603–636).  `bufferViews` is
`lib.bufferViews` (the raw bytes sliced per view); a missing accessor or
buffer view makes JS throw, modelled as `none`.  When `SIZE_MAP[type]` is
undefined and `isIndices` is set, the size defaults to 1; when it stays
undefined, `size * count` is `NaN` and the constructed views are empty.
With the quantization extension the raw view is decoded elementwise via
`raw * decodeScale[k] + decodeOffset[k]` into a fresh float array.
First, `let size = SIZE_MAP[accessorInfo.type]; if (size == null && isIndices)
size = 1;` — the component count, still undefined for a non-index accessor
without a recognised `type`: -/
def effectiveSize (a : AccessorInfo) (isIndices : Bool) : Option ℕ :=
  match a.type.bind sizeMap with
  | some n => some n
  | none => if isIndices then some 1 else none

/-- The quantization decode loop (lines 617–634): for `i < count` and
`k < size`, `decodedArr[i*size+k] = arr[i*size+k] * decodeScale[k] + decodeOffset[k]`
with `decodeScale[k] = decodeMatrix[k*(size+1)+k]` and
`decodeOffset[k] = decodeMatrix[size*(size+1)+k]`. -/
def quantizeDecode (dm : List ℚ) (size count : ℕ) (arr : List ℚ) : List ℚ :=
  (List.range count).flatMap fun i =>
    (List.range size).map fun k =>
      arr.getD (i * size + k) 0 * dm.getD (k * (size + 1) + k) 0 +
        dm.getD (size * (size + 1) + k) 0

/-- The body of `_getAccessorData`: look up the accessor and its buffer view,
build the typed view of `size * count` elements at the accessor's byte
offset, and apply the quantization decode when the extension is present
(when `size` stays undefined the views are empty — `ToIndex(NaN) = 0`). -/
def getAccessorData (accessors : List AccessorInfo) (bufferViews : List (List ℕ))
    (accessorIdx : ℕ) (isIndices : Bool) : Option (EType × List ℚ) :=
  match accessors.get? accessorIdx with
  | none => none
  | some a =>
    match bufferViews.get? a.bufferView with
    | none => none
    | some bytes =>
      match effectiveSize a isIndices with
      | none =>
        match typedArray (arrayCtorOf a.componentType) bytes a.byteOffset 0 with
        | none => none
        | some _ =>
          if a.quantizeDecodeMatrix.isSome then some (EType.float32, [])
          else some (arrayCtorOf a.componentType, [])
      | some size =>
        match typedArray (arrayCtorOf a.componentType) bytes a.byteOffset (size * a.count) with
        | none => none
        | some arr =>
          match a.quantizeDecodeMatrix with
          | none => some (arrayCtorOf a.componentType, arr)
          | some dm => some (EType.float32, quantizeDecode dm size a.count arr)

/-- The `WEIGHTS_0 && size === 4` branch of `_parseMeshes` (lines 370–382):
`weightArray = new attributeArray.constructor(count * 3)`, and per vertex the
first three of the four weights are divided by their sum and stored (the
store coerces through the array's element type — for integer-typed weight
arrays the quotients are truncated). -/
def renormalizeWeights (et : EType) (arr : List ℚ) (count : ℕ) : List ℚ :=
  (List.range count).flatMap fun i =>
    let w1 := arr.getD (i * 4) 0
    let w2 := arr.getD (i * 4 + 1) 0
    let w3 := arr.getD (i * 4 + 2) 0
    let w4 := arr.getD (i * 4 + 3) 0
    let wSum := w1 + w2 + w3 + w4
    [storeCoerce et (w1 / wSum), storeCoerce et (w2 / wSum), storeCoerce et (w3 / wSum)]

/-- The `COLOR_0 && size === 3` branch of `_parseMeshes` (lines 383–392):
expand 3-component colors to 4 components with alpha 1. -/
def expandColors (et : EType) (arr : List ℚ) (count : ℕ) : List ℚ :=
  (List.range count).flatMap fun i =>
    [storeCoerce et (arr.getD (i * 3) 0), storeCoerce et (arr.getD (i * 3 + 1) 0),
     storeCoerce et (arr.getD (i * 3 + 2) 0), storeCoerce et 1]

/-- The `instanceof` chain tagging the decoded array
(`ushort | short | ubyte | byte | float`). -/
def typeTagOf : EType → String
  | .uint16 => "ushort"
  | .int16 => "short"
  | .uint8 => "ubyte"
  | .int8 => "byte"
  | _ => "float"

/-- `semanticAttributeMap`: glTF semantic name to internal attribute name. -/
def semanticAttributeMap (semantic : String) : Option String :=
  [("NORMAL", "normal"), ("POSITION", "position"), ("TANGENT", "tangent"),
   ("TEXCOORD_0", "uv"), ("TEXCOORD_1", "uv1"), ("WEIGHTS_0", "weight"),
   ("JOINTS_0", "joint"), ("COLOR_0", "color")].lookup semantic

/-- One attribute slot of the assembler's local `geometry.attributes` object:
`{data, type, size}`. -/
structure AttrSlot where
  data : Option (List ℚ)
  typeTag : Option String
  size : Option ℕ
  deriving DecidableEq

/-- The assembler's local `geometry` object: the attribute slots (keyed by
internal attribute name) and the optional bounding box captured from the
POSITION accessor's `min`/`max`. -/
structure GeoState where
  attrs : List (String × AttrSlot)
  boundingBox : Option (Option (List ℚ) × Option (List ℚ))
  deriving DecidableEq

/-- The initial `geometry` literal of `_parseMeshes` (lines 329–345): only
`position`, `normal` and `uv` slots exist (sizes 3, 3, 2, null data). -/
def initGeometry : GeoState :=
  ⟨[("position", ⟨none, none, some 3⟩), ("normal", ⟨none, none, some 3⟩),
    ("uv", ⟨none, none, some 2⟩)], none⟩

/-- `geometry.attributes[attributeName].data = ...` (and `.type`, `.size`):
JS can only set fields on an EXISTING slot object; when `attributeName` is not
a key of the attributes object the member access yields `undefined` and the
assignment throws a `TypeError`, modelled by `none`. -/
def setAttr (attrs : List (String × AttrSlot)) (name : String) (slot : AttrSlot) :
    Option (List (String × AttrSlot)) :=
  if (attrs.lookup name).isSome then
    some (attrs.map fun kv => if kv.1 = name then (kv.1, slot) else kv)
  else none

/-- One entry of `meshInfo.primitives`: the semantic-to-accessor map (in
`Object.keys` insertion order), the optional index accessor, the optional
draw mode, and whether `extensions[KHR_draco_mesh_compression]` is present. -/
structure PrimitiveInfo where
  attributes : List (String × ℕ)
  indices : Option ℕ
  mode : Option ℕ
  hasDracoExtension : Bool
  deriving DecidableEq

/-- The draw-mode enumeration of the spec's Geometry `primitiveMode`. -/
inductive DrawMode
  | points
  | lines
  | lineloop
  | linestrip
  | triangles
  | trianglestrip
  | trianglefan
  deriving DecidableEq

/-- The fixed ordered table
`[POINTS, LINES, LINE_LOOP, LINE_STRIP, TRIANGLES, TRIANGLE_STRIP, TRIANGLE_FAN]`. -/
def drawModeTable : List DrawMode :=
  [.points, .lines, .lineloop, .linestrip, .triangles, .trianglestrip, .trianglefan]

/-- Modelled from the spec: `src/internal/constants.mjs` is not among the
sources, so the draw-mode constants are modelled as the constructors of
`DrawMode`, the spec's abstract `primitiveMode` enumeration (all truthy as JS
values, so `table[mode] || constants.TRIANGLES` falls back to `TRIANGLES`
exactly when the table read is `undefined`, i.e. when `mode` is absent or
outside `0..6`).  Had the constants been the numeric WebGL codes
(`POINTS = 0`), the `||` would additionally turn mode 0 into `TRIANGLES`. -/
def drawModeOf (mode : Option ℕ) : DrawMode :=
  (mode.bind fun m => drawModeTable.get? m).getD .triangles

/-- The assembled primitive: the geometry state, the decoded index buffer
(widened to `Uint32Array`, i.e. each element passed through `ToUint32`), and
the draw mode.  The source hands the `position`/`normal`/`uv` slots and the
indices to `new SvelteGeometry(...)` and then runs `generateVertexNormals`
when the normal slot has no data; that post-processing step is modelled by
the separate `generateVertexNormals` definition. -/
structure Primitive where
  geometry : GeoState
  indices : Option (List ℕ)
  mode : DrawMode
  deriving DecidableEq

/-- Processing of one semantic of `primitiveInfo.attributes` (lines 354–423):
unknown semantics are skipped; the accessor is decoded; `Uint32Array` data is
widened to float; `WEIGHTS_0`/`COLOR_0` with matching component counts are
rewritten; data, type tag and size are stored into the named attribute slot
(throwing when the slot does not exist); `POSITION` additionally captures the
accessor's `min`/`max` into the bounding box. -/
def processSemantic (accessors : List AccessorInfo) (bufferViews : List (List ℕ))
    (geo : GeoState) (sa : String × ℕ) : Except String GeoState :=
  match semanticAttributeMap sa.1 with
  | none => .ok geo
  | some attributeName =>
    match accessors.get? sa.2 with
    | none => .error "TypeError: cannot read type of undefined accessorInfo"
    | some attributeInfo =>
      let size0 : Option ℕ := attributeInfo.type.bind sizeMap
      match getAccessorData accessors bufferViews sa.2 false with
      | none => .error "TypeError or RangeError while decoding the attribute accessor"
      | some ea =>
        let et := if ea.1 = EType.uint32 then EType.float32 else ea.1
        let arr := ea.2
        let data :=
          if sa.1 = "WEIGHTS_0" ∧ size0 = some 4 then
            renormalizeWeights et arr attributeInfo.count
          else if sa.1 = "COLOR_0" ∧ size0 = some 3 then
            expandColors et arr attributeInfo.count
          else arr
        match setAttr geo.attrs attributeName ⟨some data, some (typeTagOf et), size0⟩ with
        | none =>
          .error ("TypeError: geometry.attributes." ++ attributeName ++ " is undefined")
        | some attrs2 =>
          if sa.1 = "POSITION" then
            .ok ⟨attrs2, some (attributeInfo.minVals, attributeInfo.maxVals)⟩
          else .ok ⟨attrs2, geo.boundingBox⟩

/-- Assembly of one glTF primitive, i.e. the body of the per-primitive
`Promise` of `GLTFLoader._parseMeshes` (lines 323–498).  A primitive flagged
with the Draco extension is rejected with the message naming the mesh and
primitive indices.  Otherwise each semantic is processed in order; then the
source's `vertexCount` line reads `geometry.attributes.position.data.length`,
which throws when no POSITION attribute was stored (`data` is still `null`);
then the index accessor, when declared, is decoded with `isIndices = true`
and copied into a `new Uint32Array`, and the draw mode is selected. -/
def assemblePrimitive (accessors : List AccessorInfo) (bufferViews : List (List ℕ))
    (meshIdx primIdx : ℕ) (p : PrimitiveInfo) : Except String Primitive :=
  if p.hasDracoExtension then
    .error ("GLTFLoader._parseMeshes: Don not support DRACO. Mesh: " ++ toString meshIdx ++
      ", primitive " ++ toString primIdx)
  else
    match p.attributes.foldlM (processSemantic accessors bufferViews) initGeometry with
    | .error e => .error e
    | .ok geo =>
      match (geo.attrs.lookup "position").bind (fun s => s.data) with
      | none => .error "TypeError: cannot read length of null position data"
      | some _ =>
        match p.indices with
        | none => .ok ⟨geo, none, drawModeOf p.mode⟩
        | some indicesIdx =>
          match getAccessorData accessors bufferViews indicesIdx true with
          | none => .error "TypeError or RangeError while decoding the index accessor"
          | some ea =>
            .ok ⟨geo, some (ea.2.map fun q => wrapUnsigned 32 (jsTrunc q)), drawModeOf p.mode⟩

/-- JS `Array.prototype.forEach`-with-index mapping, made explicit. -/
def mapWithIndex {α β : Type} (f : ℕ → α → β) : ℕ → List α → List β
  | _, [] => []
  | n, a :: as => f n a :: mapWithIndex f (n + 1) as

/-- The mesh loop of `_parseMeshes`: one assembly result per primitive, per
mesh, each depending only on its own mesh index, primitive index and
primitive info. -/
def parseMeshes (accessors : List AccessorInfo) (bufferViews : List (List ℕ))
    (meshes : List (List PrimitiveInfo)) : List (List (Except String Primitive)) :=
  mapWithIndex
    (fun idx prims => mapWithIndex (fun pp p => assemblePrimitive accessors bufferViews idx pp p) 0 prims)
    0 meshes

/-- The loader's three configured root paths (`undefined` modelled as
`none`). -/
structure LoaderOptions where
  rootPath : Option String
  bufferRootPath : Option String
  textureRootPath : Option String
  deriving DecidableEq

/-- The index of the last `/` of a string, when any (JS `lastIndexOf`). -/
def lastSlashIndex (u : String) : Option ℕ :=
  ((List.range u.toList.length).filter fun i => u.toList.get? i = some '/').getLast?

/-- JS `url.slice(0, url.lastIndexOf('/'))`: up to the last slash, or —
when there is no slash, so `lastIndexOf` is `-1` — `slice(0, -1)`, which
drops the final character. -/
def jsSliceToLastSlash (u : String) : String :=
  match lastSlashIndex u with
  | some i => String.mk (u.toList.take i)
  | none => String.mk (u.toList.take (u.toList.length - 1))

/-- The error message thrown for a missing or empty url. -/
def loadModelErrMsg : String := "GLTFLoader.loadModel: Given url is undefined or empty."

/-- The synchronous prefix of `GLTFLoader.loadModel(url, opts)`
(`src/loader/GLTFLoader.mjs` lines 134–170): a falsy url (`undefined`,
`null` or the empty string) throws before anything else happens; otherwise
the three root paths are defaulted from the url and the url is handed to
`fetch`.  The result pairs the loader state after the call (unchanged on the
error path, since the throw precedes the assignments) with either the error
or the url passed to `fetch`. -/
def loadModel (st : LoaderOptions) (url : Option String) :
    LoaderOptions × Except String String :=
  match url with
  | none => (st, .error loadModelErrMsg)
  | some u =>
    if u = "" then (st, .error loadModelErrMsg)
    else
      let root := match st.rootPath with
        | some r => r
        | none => jsSliceToLastSlash u
      let bufferRoot := match st.bufferRootPath with
        | some r => r
        | none => root
      let textureRoot := match st.textureRootPath with
        | some r => r
        | none => root
      (⟨some root, some bufferRoot, some textureRoot⟩, .ok u)

/-- One attribute of a `SvelteGeometry` as seen by the post-processors:
`{data, size}` (the `count` read by `generateVertexNormals` is the same
components-per-vertex number, per the spec's `DecodedAttribute`
`componentCount`; `Geometry.mjs` itself is not among the sources). -/
structure GAttr where
  data : Option (List ℚ)
  size : ℕ
  deriving DecidableEq

/-- The geometry handed to the post-processors: the three attribute slots the
loader passes to `new SvelteGeometry(...)` plus the index buffer. -/
structure Geometry where
  position : GAttr
  normal : GAttr
  uv : GAttr
  index : Option (List ℕ)
  deriving DecidableEq

/-- The `vertexCount` guard shared by `generateVertexNormals` and
`generateTangents`: `attributes.position.data.length / attributes.position.count`
when position data exists, with an early return on a falsy result. -/
def vertexCountOf (g : Geometry) : ℕ :=
  match g.position.data with
  | none => 0
  | some d => d.length / g.position.size

/-- `generateTangents(geometry)` of `src/internal/utils.mjs` (lines 189–307)
as it actually executes.  After the `vertexCount` guard (which uses the
`geometry` parameter), the very next statement is
`const attributes = this.attributes;` — but the function is called as a plain
module function (`generateTangents(geometry)`), so `this` is `undefined` in
strict mode and the member access throws a `TypeError` before any tangent is
computed.  (Even with `this` bound to the geometry, the later
`attributes.normal.value` read — every other site uses `.data` — would make
the per-vertex loop throw.)  The early-return path leaves the geometry
unchanged. -/
def generateTangents (g : Geometry) : Except String Geometry :=
  if vertexCountOf g = 0 then .ok g
  else .error "TypeError: cannot read attributes of undefined (this is undefined)"

/-- Per-face tangent direction `sdir` of the tangent loop: with UV edge
deltas `s1,s2,t1,t2` and position edge deltas `x1,x2,y1,y2,z1,z2`,
`r = 1 / (s1*t2 - t1*s2)` and
`sdir = ((t2*x1 - t1*x2)*r, (t2*y1 - t1*y2)*r, (t2*z1 - t1*z2)*r)`.
A zero UV determinant gives `Infinity`/`NaN` in JS (propagated, not caught);
in `ℚ` the inverse of `0` is `0`.  The claims stay on non-degenerate UVs. -/
def faceSdir (positions texcoords : List ℚ) (t : ℕ × ℕ × ℕ) : Vec3 :=
  let st1 := texAt texcoords t.1
  let st2 := texAt texcoords t.2.1
  let st3 := texAt texcoords t.2.2
  let p1 := posAt positions t.1
  let p2 := posAt positions t.2.1
  let p3 := posAt positions t.2.2
  let s1 := st2.1 - st1.1
  let s2 := st3.1 - st1.1
  let t1 := st2.2 - st1.2
  let t2 := st3.2 - st1.2
  let r := (s1 * t2 - t1 * s2)⁻¹
  ((t2 * (p2.1 - p1.1) - t1 * (p3.1 - p1.1)) * r,
   (t2 * (p2.2.1 - p1.2.1) - t1 * (p3.2.1 - p1.2.1)) * r,
   (t2 * (p2.2.2 - p1.2.2) - t1 * (p3.2.2 - p1.2.2)) * r)

/-- Per-face bitangent direction `tdir` of the tangent loop:
`tdir = ((s1*x2 - s2*x1)*r, (s1*y2 - s2*y1)*r, (s1*z2 - s2*z1)*r)`. -/
def faceTdir (positions texcoords : List ℚ) (t : ℕ × ℕ × ℕ) : Vec3 :=
  let st1 := texAt texcoords t.1
  let st2 := texAt texcoords t.2.1
  let st3 := texAt texcoords t.2.2
  let p1 := posAt positions t.1
  let p2 := posAt positions t.2.1
  let p3 := posAt positions t.2.2
  let s1 := st2.1 - st1.1
  let s2 := st3.1 - st1.1
  let t1 := st2.2 - st1.2
  let t2 := st3.2 - st1.2
  let r := (s1 * t2 - t1 * s2)⁻¹
  ((s1 * (p3.1 - p1.1) - s2 * (p2.1 - p1.1)) * r,
   (s1 * (p3.2.1 - p1.2.1) - s2 * (p2.2.1 - p1.2.1)) * r,
   (s1 * (p3.2.2 - p1.2.2) - s2 * (p2.2.2 - p1.2.2)) * r)

/-- The per-vertex tangent accumulator `tan1` after the face loop. -/
def tan1Accum (positions texcoords : List ℚ) (faces : List (ℕ × ℕ × ℕ)) : ℕ → Vec3 :=
  accumFacesWith (faceSdir positions texcoords) faces (fun _ => (0, 0, 0))

/-- The per-vertex bitangent accumulator `tan2` after the face loop. -/
def tan2Accum (positions texcoords : List ℚ) (faces : List (ℕ × ℕ × ℕ)) : ℕ → Vec3 :=
  accumFacesWith (faceTdir positions texcoords) faces (fun _ => (0, 0, 0))

/-- The algorithm the body of `generateTangents` evidently implements
(claygl's Lengyel tangent generation, per the reference URL in its comment),
read with the two slips repaired: `this` taken as the `geometry` argument and
`attributes.normal.value` as `attributes.normal.data`.  Per vertex `i`:
Gram-Schmidt-orthogonalise the accumulated tangent `t` against the vertex
normal `n` (`tmp = t - dot(n,t) * n`), normalise it (the stored xyz), and
store as 4th component the handedness
`dot(cross(n, t), tan2[i]) < 0 ? -1 : 1`. -/
noncomputable def intendedTangentAt (positions texcoords normals : List ℚ)
    (indices : Option (List ℕ)) (nVertex : ℕ) (i : ℕ) : Vec3R × ℚ :=
  let faces := facesFrom (faceIndexList indices nVertex)
  let n := posAt normals i
  let t := tan1Accum positions texcoords faces i
  let tmp := t - dot3 n t • n
  (glNormalize tmp,
   if dot3 (cross3 n t) (tan2Accum positions texcoords faces i) < 0 then -1 else 1)

/-- The flat tangent buffer the repaired algorithm writes
(`new Float32Array(nVertex * 4)`, entries `i*4 .. i*4+3`). -/
noncomputable def intendedTangentArray (positions texcoords normals : List ℚ)
    (indices : Option (List ℕ)) (nVertex : ℕ) : List ℝ :=
  (List.range nVertex).flatMap fun i =>
    let tw := intendedTangentAt positions texcoords normals indices nVertex i
    [tw.1.1, tw.1.2.1, tw.1.2.2, (tw.2 : ℝ)]

/-- Helper: one face's three sequential read-modify-writes add the face
vector into a vertex once per occurrence of the vertex in the face. -/
theorem addAt_triple (acc : ℕ → Vec3) (t : ℕ × ℕ × ℕ) (n : Vec3) (v : ℕ) :
    addAt (addAt (addAt acc t.1 n) t.2.1 n) t.2.2 n v = acc v + occCount v t • n := by
  rcases t with ⟨i1, i2, i3⟩
  simp only [addAt, occCount]
  split_ifs <;> (simp only [nsmul_eq_mul]; push_cast; ring)

/-- Helper: the face-accumulation loop computes, at each vertex, the initial
value plus the sum over all faces of (occurrences of the vertex in the face)
times the per-face vector. -/
theorem accumFacesWith_apply (g : ℕ × ℕ × ℕ → Vec3) :
    ∀ (ts : List (ℕ × ℕ × ℕ)) (acc : ℕ → Vec3) (v : ℕ),
      accumFacesWith g ts acc v = acc v + (ts.map fun t => occCount v t • g t).sum := by
  intro ts
  induction ts with
  | nil => intro acc v; simp [accumFacesWith]
  | cons t ts ih =>
    intro acc v
    rw [accumFacesWith, ih, addAt_triple, List.map_cons, List.sum_cons, add_assoc]

/-- Helper: a `flatMap` of fixed-length blocks over `List.range c` has length
`c * m`. -/
theorem flatMap_blocks_length {α : Type} (m : ℕ) (bl : ℕ → List α)
    (hm : ∀ i, (bl i).length = m) :
    ∀ c : ℕ, ((List.range c).flatMap bl).length = c * m := by
  intro c
  induction c with
  | zero => simp
  | succ c ih =>
    rw [List.range_succ, List.flatMap_append, List.length_append, ih]
    simp [hm, Nat.succ_mul]

/-- Helper: entry `i * m + k` of a `flatMap` of fixed-length-`m` blocks over
`List.range c` is entry `k` of block `i`. -/
theorem flatMap_blocks_getD {α : Type} (m : ℕ) (bl : ℕ → List α) (d : α)
    (hm : ∀ i, (bl i).length = m) :
    ∀ (c i k : ℕ), i < c → k < m →
      ((List.range c).flatMap bl).getD (i * m + k) d = (bl i).getD k d := by
  intro c
  induction c with
  | zero => intro i k hi; omega
  | succ c ih =>
    intro i k hi hk
    rw [List.range_succ, List.flatMap_append]
    rcases Nat.lt_or_ge i c with hic | hic
    · rw [List.getD_append _ _ _ _ (by
        rw [flatMap_blocks_length m bl hm c]
        calc i * m + k < i * m + m := by omega
        _ = (i + 1) * m := by ring
        _ ≤ c * m := Nat.mul_le_mul_right m (by omega))]
      exact ih i k hic hk
    · have hieq : i = c := by omega
      subst hieq
      rw [List.getD_append_right _ _ _ _ (by
        rw [flatMap_blocks_length m bl hm i]; omega)]
      rw [flatMap_blocks_length m bl hm i]
      simp [Nat.add_sub_cancel_left]

/-- C2 counterexample: resolving `"../tex/a.png"` against base
`"models/scene"` pops only the single trailing directory `"scene"`, giving
`"models/tex/a.png"` — not the `"tex/a.png"` the claim states. -/
theorem relative2absolute_counterexample :
    relative2absolute "../tex/a.png" "models/scene" = "models/tex/a.png" ∧
    "models/tex/a.png" ≠ "tex/a.png" := by
  constructor
  · decide
  · decide

/-- C2 (amended): an absolute path (leading `/`) passes through unchanged for
every base; on the segment lists, each leading `./` segment is stripped and
each leading `../` segment pops one trailing directory of the base and is
consumed, the loop stopping at the first other segment; for a non-empty base
the result joins the reduced base parts and remaining path parts with `/`;
and concretely `resolve("../tex/a.png", "models/scene") = "models/tex/a.png"`
(the claim's `"tex/a.png"` is off by the retained base prefix),
`resolve("./a.png", "models") = "models/a.png"`,
`resolve("/abs/a.png", "models") = "/abs/a.png"`. -/
theorem relative2absolute_spec :
    (∀ path basePath : String, startsWithSlash path = true →
      relative2absolute path basePath = path) ∧
    (∀ ps bs : List String, stripParts ("." :: ps) bs = stripParts ps bs) ∧
    (∀ ps bs : List String, stripParts (".." :: ps) bs = stripParts ps bs.dropLast) ∧
    (∀ (p : String) (ps bs : List String), p ≠ "." → p ≠ ".." →
      stripParts (p :: ps) bs = (p :: ps, bs)) ∧
    (∀ path basePath : String, basePath ≠ "" → startsWithSlash path = false →
      relative2absolute path basePath =
        String.intercalate "/" (stripParts (splitSlash path) (splitSlash basePath)).2 ++
          "/" ++ String.intercalate "/" (stripParts (splitSlash path) (splitSlash basePath)).1) ∧
    relative2absolute "../tex/a.png" "models/scene" = "models/tex/a.png" ∧
    relative2absolute "./a.png" "models" = "models/a.png" ∧
    relative2absolute "/abs/a.png" "models" = "/abs/a.png" := by
  refine ⟨?_, ?_, ?_, ?_, ?_, by decide, by decide, by decide⟩
  · intro path basePath h
    rw [relative2absolute, if_pos (Or.inr h)]
  · intro ps bs
    simp [stripParts]
  · intro ps bs
    simp [stripParts]
  · intro p ps bs h1 h2
    rw [stripParts, if_neg h1, if_neg h2]
  · intro path basePath h1 h2
    rw [relative2absolute, if_neg]
    rintro (h | h)
    · exact h1 h
    · rw [h2] at h
      cases h

/-- C2 witness: the amended theorem applied at the concrete examples. -/
theorem relative2absolute_spec_witness :
    startsWithSlash "/abs/a.png" = true ∧
    relative2absolute "/abs/a.png" "models" = "/abs/a.png" ∧
    stripParts ["..", "tex", "a.png"] ["models", "scene"] =
      stripParts ["tex", "a.png"] ["models"] :=
  ⟨by decide, relative2absolute_spec.1 "/abs/a.png" "models" (by decide),
    relative2absolute_spec.2.2.1 ["tex", "a.png"] ["models", "scene"]⟩

/-- C3: at offset 0 the claim holds — `base64ToBinary("QQ==", 0)` is the
single byte 65 — but the padding trim reads `input.charAt(len - 1)` with
`len = input.length - charStart`, an index into the WHOLE string; for the
realistic data-URI call (`charStart = 37`) the characters inspected are part
of the prefix, no `=` is trimmed, and the output is the 3 bytes
`[65, 0, 0]` instead of the single byte the claim computes. -/
theorem base64ToBinary_bug :
    base64ToBinary "QQ==".toList 0 = [65] ∧
    base64ToBinary "data:application/octet-stream;base64,QQ==".toList 37 = [65, 0, 0] := by
  constructor
  · decide
  · decide

/-- C10: `loadModel` with an undefined, null or empty-string url returns the
dedicated error with the loader's root paths unchanged and no url handed
to `fetch`. -/
theorem loadModel_rejects_empty_url :
    ∀ (st : LoaderOptions) (url : Option String), url = none ∨ url = some "" →
      loadModel st url = (st, .error loadModelErrMsg) := by
  intro st url h
  rcases h with h | h
  · rw [h, loadModel]
  · rw [h, loadModel]
    simp

/-- C10 witness: the theorem applied to a concrete loader state and the
undefined url. -/
theorem loadModel_rejects_empty_url_witness :
    loadModel ⟨some "a", none, none⟩ none = (⟨some "a", none, none⟩, .error loadModelErrMsg) :=
  loadModel_rejects_empty_url ⟨some "a", none, none⟩ none (Or.inl rfl)

/-- Helper: indexing an indexed map. -/
theorem mapWithIndex_get? {α β : Type} (f : ℕ → α → β) :
    ∀ (s : ℕ) (l : List α) (i : ℕ),
      (mapWithIndex f s l).get? i = (l.get? i).map (f (s + i)) := by
  intro s l
  induction l generalizing s with
  | nil => intro i; simp [mapWithIndex]
  | cons a as ih =>
    intro i
    cases i with
    | zero => simp [mapWithIndex]
    | succ i =>
      have hsi : s + (i + 1) = s + 1 + i := by omega
      rw [mapWithIndex, List.get?_cons_succ, List.get?_cons_succ, ih (s + 1) i, hsi]

/-- C7: every successfully assembled primitive's draw mode is
`drawModeOf p.mode`; the table lookup returns the fixed ordered entry for
modes 0..6, and the `|| TRIANGLES` fallback produces `triangles` exactly for
an absent or out-of-range mode (constants spec-modelled as the abstract
enumeration, see `drawModeOf`). -/
theorem draw_mode_spec :
    (∀ (accessors : List AccessorInfo) (bufferViews : List (List ℕ)) (meshIdx primIdx : ℕ)
        (p : PrimitiveInfo) (prim : Primitive),
        assemblePrimitive accessors bufferViews meshIdx primIdx p = .ok prim →
        prim.mode = drawModeOf p.mode) ∧
    (∀ m : ℕ, m < 7 → drawModeTable.get? m = some (drawModeOf (some m))) ∧
    (∀ m : ℕ, 7 ≤ m → drawModeOf (some m) = .triangles) ∧
    drawModeOf none = .triangles := by
  refine ⟨?_, ?_, ?_, rfl⟩
  · intro A B i j p prim h
    unfold assemblePrimitive at h
    split at h
    · exact Except.noConfusion h
    · split at h
      · exact Except.noConfusion h
      · split at h
        · exact Except.noConfusion h
        · split at h
          · simp only [Except.ok.injEq] at h
            rw [← h]
          · split at h
            · exact Except.noConfusion h
            · simp only [Except.ok.injEq] at h
              rw [← h]
  · intro m hm
    interval_cases m <;> rfl
  · intro m hm
    have hnone : drawModeTable[m]? = none :=
      List.getElem?_eq_none (by simpa [drawModeTable] using hm)
    simp [drawModeOf, hnone]

deriving instance DecidableEq for Except

/-- C7 witness: a concrete primitive with mode 1 assembles to draw mode
`lines`, and the theorem's table and fallback parts at modes 1 and 9. -/
theorem draw_mode_spec_witness :
    DrawMode.lines = drawModeOf (some 1) ∧
    drawModeTable.get? 1 = some (drawModeOf (some 1)) ∧
    drawModeOf (some 9) = DrawMode.triangles := by
  refine ⟨?_, draw_mode_spec.2.1 1 (by decide), draw_mode_spec.2.2.1 9 (by decide)⟩
  exact draw_mode_spec.1 [⟨0, 0, 5121, some "VEC3", 1, none, none, none⟩] [[0, 0, 0]] 0 0
    ⟨[("POSITION", 0)], none, some 1, false⟩
    ⟨⟨[("position", ⟨some [0, 0, 0], some "ubyte", some 3⟩),
       ("normal", ⟨none, none, some 3⟩), ("uv", ⟨none, none, some 2⟩)],
      some (none, none)⟩, none, DrawMode.lines⟩ (by decide)

/-- C9: a primitive flagged with the Draco mesh-compression extension is
rejected with the error naming its mesh and primitive indices, and each entry
of the parsed mesh lists is exactly the assembly of its own primitive info —
so sibling primitives are unaffected by a Draco rejection. -/
theorem draco_spec :
    (∀ (accessors : List AccessorInfo) (bufferViews : List (List ℕ)) (meshIdx primIdx : ℕ)
        (p : PrimitiveInfo), p.hasDracoExtension = true →
        assemblePrimitive accessors bufferViews meshIdx primIdx p =
          .error ("GLTFLoader._parseMeshes: Don not support DRACO. Mesh: " ++
            toString meshIdx ++ ", primitive " ++ toString primIdx)) ∧
    (∀ (accessors : List AccessorInfo) (bufferViews : List (List ℕ))
        (meshes : List (List PrimitiveInfo)) (meshIdx primIdx : ℕ)
        (prims : List PrimitiveInfo) (p : PrimitiveInfo),
        meshes.get? meshIdx = some prims → prims.get? primIdx = some p →
        ((parseMeshes accessors bufferViews meshes).get? meshIdx).bind (fun l => l.get? primIdx) =
          some (assemblePrimitive accessors bufferViews meshIdx primIdx p)) := by
  constructor
  · intro A B i j p h
    rw [assemblePrimitive, if_pos h]
  · intro A B meshes i j prims p h1 h2
    rw [parseMeshes, mapWithIndex_get?, h1]
    simp only [Option.map_some', Option.some_bind, Nat.zero_add]
    rw [mapWithIndex_get?, h2]
    simp

/-- C9 witness: in a mesh holding a Draco primitive (index 0) and a plain
position-only primitive (index 1), the first is rejected with the
index-carrying message and the second's entry is its own assembly. -/
theorem draco_spec_witness :
    assemblePrimitive [⟨0, 0, 5121, some "VEC3", 1, none, none, none⟩] [[0, 0, 0]] 0 0
        ⟨[], none, none, true⟩ =
      .error ("GLTFLoader._parseMeshes: Don not support DRACO. Mesh: " ++ toString (0 : ℕ) ++
        ", primitive " ++ toString (0 : ℕ)) ∧
    ((parseMeshes [⟨0, 0, 5121, some "VEC3", 1, none, none, none⟩] [[0, 0, 0]]
        [[⟨[], none, none, true⟩, ⟨[("POSITION", 0)], none, some 1, false⟩]]).get? 0).bind
        (fun l => l.get? 1) =
      some (assemblePrimitive [⟨0, 0, 5121, some "VEC3", 1, none, none, none⟩] [[0, 0, 0]] 0 1
        ⟨[("POSITION", 0)], none, some 1, false⟩) :=
  ⟨draco_spec.1 _ _ 0 0 ⟨[], none, none, true⟩ rfl,
   draco_spec.2 _ _ _ 0 1 _ _ rfl rfl⟩

/-- Helper: a successfully constructed typed view has exactly the requested
number of elements. -/
theorem typedArray_length (et : EType) (bytes : List ℕ) (off len : ℕ) (arr : List ℚ)
    (h : typedArray et bytes off len = some arr) : arr.length = len := by
  rw [typedArray] at h
  split_ifs at h
  simp only [Option.some.injEq] at h
  rw [← h]
  simp

/-- Helper: the component count of an accessor with a recognised `type`. -/
theorem effectiveSize_of_type (a : AccessorInfo) (ii : Bool) (t : String) (n : ℕ)
    (h2 : a.type = some t) (h3 : sizeMap t = some n) : effectiveSize a ii = some n := by
  rw [effectiveSize, h2, Option.some_bind, h3]

/-- Helper: the component count defaults to 1 for an index accessor without a
`type`. -/
theorem effectiveSize_indices (a : AccessorInfo) (h2 : a.type = none) :
    effectiveSize a true = some 1 := by
  simp [effectiveSize, h2]

/-- C4: for a valid accessor the decoded buffer length is
`componentCount(type) × count`, with the component count read from the
SCALAR..MAT4 table, and taken as 1 for an index-buffer accessor without a
`type`. -/
theorem accessor_data_length :
    (∀ (accessors : List AccessorInfo) (bufferViews : List (List ℕ)) (idx : ℕ)
        (isIndices : Bool) (a : AccessorInfo) (t : String) (n : ℕ) (et : EType) (arr : List ℚ),
        accessors.get? idx = some a → a.type = some t → sizeMap t = some n →
        getAccessorData accessors bufferViews idx isIndices = some (et, arr) →
        arr.length = n * a.count) ∧
    (∀ (accessors : List AccessorInfo) (bufferViews : List (List ℕ)) (idx : ℕ)
        (a : AccessorInfo) (et : EType) (arr : List ℚ),
        accessors.get? idx = some a → a.type = none →
        getAccessorData accessors bufferViews idx true = some (et, arr) →
        arr.length = 1 * a.count) := by
  constructor
  · intro A B idx ii a t n et arr h1 h2 h3 h
    simp only [getAccessorData, h1, effectiveSize_of_type a ii t n h2 h3] at h
    split at h
    · exact Option.noConfusion h
    · split at h
      · exact Option.noConfusion h
      · rename_i bytes hb arr0 ha0
        split at h
        · simp only [Option.some.injEq, Prod.mk.injEq] at h
          rw [← h.2]
          exact typedArray_length _ _ _ _ _ ha0
        · simp only [Option.some.injEq, Prod.mk.injEq] at h
          rw [← h.2, quantizeDecode, flatMap_blocks_length n _ (fun i => by simp) a.count]
          ring
  · intro A B idx a et arr h1 h2 h
    simp only [getAccessorData, h1, effectiveSize_indices a h2] at h
    split at h
    · exact Option.noConfusion h
    · split at h
      · exact Option.noConfusion h
      · rename_i bytes hb arr0 ha0
        split at h
        · simp only [Option.some.injEq, Prod.mk.injEq] at h
          rw [← h.2]
          exact typedArray_length _ _ _ _ _ ha0
        · simp only [Option.some.injEq, Prod.mk.injEq] at h
          rw [← h.2, quantizeDecode, flatMap_blocks_length 1 _ (fun i => by simp) a.count]
          ring

/-- C4 witness: a ubyte VEC3 accessor with count 2 over a 6-byte view decodes
to a 6-element buffer, and a typeless index accessor with count 4 over 4
ubyte bytes decodes to a 4-element buffer. -/
theorem accessor_data_length_witness :
    getAccessorData [⟨0, 0, 5121, some "VEC3", 2, none, none, none⟩] [[9, 8, 7, 6, 5, 4]] 0 false =
      some (EType.uint8, [9, 8, 7, 6, 5, 4]) ∧
    ([9, 8, 7, 6, 5, 4] : List ℚ).length = 3 * 2 ∧
    getAccessorData [⟨0, 0, 5121, none, 4, none, none, none⟩] [[3, 2, 1, 0]] 0 true =
      some (EType.uint8, [3, 2, 1, 0]) ∧
    ([3, 2, 1, 0] : List ℚ).length = 1 * 4 := by
  refine ⟨by decide, ?_, by decide, ?_⟩
  · exact accessor_data_length.1 [⟨0, 0, 5121, some "VEC3", 2, none, none, none⟩]
      [[9, 8, 7, 6, 5, 4]] 0 false _ "VEC3" 3 EType.uint8 _ rfl rfl rfl (by decide)
  · exact accessor_data_length.2 [⟨0, 0, 5121, none, 4, none, none, none⟩]
      [[3, 2, 1, 0]] 0 _ EType.uint8 _ rfl rfl (by decide)

/-- The m×m row-major identity matrix: the "identity decode matrix"
(scale 1 on the diagonal, offset row zero). -/
def identityMatrixQ (m : ℕ) : List ℚ :=
  (List.range (m * m)).map fun j => if j / m = j % m then 1 else 0

/-- Helper: reading a mapped range at an in-range index. -/
theorem map_range_getD (M : ℕ) (f : ℕ → ℚ) (j : ℕ) (h : j < M) :
    ((List.range M).map f).getD j 0 = f j := by
  rw [List.getD_eq_getElem?_getD, List.getElem?_map, List.getElem?_range h]
  rfl

/-- Helper: the diagonal scale entries of the identity decode matrix are 1. -/
theorem identityMatrixQ_diag (n k : ℕ) (hk : k < n + 1) :
    (identityMatrixQ (n + 1)).getD (k * (n + 1) + k) 0 = 1 := by
  have he : k * (n + 1) + k = k + (n + 1) * k := by ring
  have hb : k * (n + 1) + k < (n + 1) * (n + 1) := by
    calc k * (n + 1) + k < k * (n + 1) + (n + 1) := by omega
    _ = (k + 1) * (n + 1) := by ring
    _ ≤ (n + 1) * (n + 1) := Nat.mul_le_mul_right _ (by omega)
  rw [identityMatrixQ, map_range_getD _ _ _ hb, he, Nat.add_mul_div_left _ _ (Nat.succ_pos n),
    Nat.add_mul_mod_self_left, Nat.div_eq_of_lt hk, Nat.mod_eq_of_lt hk]
  simp

/-- Helper: the offset row entries of the identity decode matrix are 0. -/
theorem identityMatrixQ_offdiag (n k : ℕ) (hk : k < n) :
    (identityMatrixQ (n + 1)).getD (n * (n + 1) + k) 0 = 0 := by
  have he : n * (n + 1) + k = k + (n + 1) * n := by ring
  have hb : n * (n + 1) + k < (n + 1) * (n + 1) := by
    calc n * (n + 1) + k < n * (n + 1) + (n + 1) := by omega
    _ = (n + 1) * (n + 1) := by ring
  rw [identityMatrixQ, map_range_getD _ _ _ hb, he, Nat.add_mul_div_left _ _ (Nat.succ_pos n),
    Nat.add_mul_mod_self_left, Nat.div_eq_of_lt (by omega : k < n + 1),
    Nat.mod_eq_of_lt (by omega : k < n + 1)]
  simp
  omega

/-- C5: an accessor carrying the quantized-attributes extension decodes to a
fresh float buffer whose entry `i*n+k` is
`raw[i*n+k] * decodeMatrix[k*(n+1)+k] + decodeMatrix[n*(n+1)+k]`; with the
identity decode matrix the decoded buffer equals the raw values. -/
theorem quantized_decode_spec :
    ∀ (accessors : List AccessorInfo) (bufferViews : List (List ℕ)) (idx : ℕ)
      (isIndices : Bool) (a : AccessorInfo) (t : String) (n : ℕ) (dm : List ℚ)
      (bytes : List ℕ) (raw : List ℚ),
      accessors.get? idx = some a → a.type = some t → sizeMap t = some n →
      a.quantizeDecodeMatrix = some dm → dm.length = (n + 1) * (n + 1) →
      bufferViews.get? a.bufferView = some bytes →
      typedArray (arrayCtorOf a.componentType) bytes a.byteOffset (n * a.count) = some raw →
      getAccessorData accessors bufferViews idx isIndices =
        some (EType.float32, quantizeDecode dm n a.count raw) ∧
      (∀ i k : ℕ, i < a.count → k < n →
        (quantizeDecode dm n a.count raw).getD (i * n + k) 0 =
          raw.getD (i * n + k) 0 * dm.getD (k * (n + 1) + k) 0 +
            dm.getD (n * (n + 1) + k) 0) ∧
      (dm = identityMatrixQ (n + 1) → quantizeDecode dm n a.count raw = raw) := by
  intro A B idx ii a t n dm bytes raw h1 h2 h3 h4 h5 h6 h7
  have hblock : ∀ i : ℕ,
      ((List.range n).map fun k =>
        raw.getD (i * n + k) 0 * dm.getD (k * (n + 1) + k) 0 +
          dm.getD (n * (n + 1) + k) 0).length = n := by
    intro i; simp
  have hgetD : ∀ i k : ℕ, i < a.count → k < n →
      (quantizeDecode dm n a.count raw).getD (i * n + k) 0 =
        raw.getD (i * n + k) 0 * dm.getD (k * (n + 1) + k) 0 +
          dm.getD (n * (n + 1) + k) 0 := by
    intro i k hi hk
    rw [quantizeDecode, flatMap_blocks_getD n _ 0 hblock a.count i k hi hk,
      map_range_getD n _ k hk]
  refine ⟨?_, hgetD, ?_⟩
  · simp only [getAccessorData, h1, h6, effectiveSize_of_type a ii t n h2 h3, h7, h4]
  · intro hdm
    subst hdm
    rcases Nat.eq_zero_or_pos n with hn | hn
    · subst hn
      have hr : raw.length = 0 := by
        have := typedArray_length _ _ _ _ _ h7
        omega
      have hq : (quantizeDecode (identityMatrixQ (0 + 1)) 0 a.count raw).length = 0 := by
        rw [quantizeDecode, flatMap_blocks_length 0 _ (fun i => by simp) a.count]
        omega
      rw [List.length_eq_zero] at hr hq
      rw [hq, hr]
    · have hrawlen : raw.length = n * a.count := typedArray_length _ _ _ _ _ h7
      have hqlen : (quantizeDecode (identityMatrixQ (n + 1)) n a.count raw).length = n * a.count := by
        rw [quantizeDecode, flatMap_blocks_length n _ (fun i => by simp) a.count]
        ring
      apply List.ext_getElem (by rw [hqlen, hrawlen])
      intro j hj1 hj2
      have hjlt : j < n * a.count := by rw [← hrawlen]; exact hj2
      have hk : j % n < n := Nat.mod_lt _ hn
      have hi : j / n < a.count := by
        rw [Nat.div_lt_iff_lt_mul hn]
        calc j < n * a.count := hjlt
        _ = a.count * n := by ring
      have hji : j / n * n + j % n = j := by
        rw [Nat.mul_comm]
        exact Nat.div_add_mod j n
      have hval := hgetD (j / n) (j % n) hi hk
      rw [hji] at hval
      rw [identityMatrixQ_diag n _ (by omega), identityMatrixQ_offdiag n _ hk] at hval
      rw [← List.getD_eq_getElem (quantizeDecode (identityMatrixQ (n + 1)) n a.count raw) 0 hj1,
        ← List.getD_eq_getElem raw 0 hj2, hval]
      ring

/-- C5 witness: a ubyte VEC3 accessor with the identity 4×4 decode matrix
decodes raw bytes `[5, 6, 7]` to the same values as floats. -/
theorem quantized_decode_spec_witness :
    (identityMatrixQ (3 + 1)).length = (3 + 1) * (3 + 1) ∧
    (getAccessorData [⟨0, 0, 5121, some "VEC3", 1, some (identityMatrixQ (3 + 1)), none, none⟩]
        [[5, 6, 7]] 0 false =
        some (EType.float32, quantizeDecode (identityMatrixQ (3 + 1)) 3 1 [5, 6, 7]) ∧
      (∀ i k : ℕ, i < 1 → k < 3 →
        (quantizeDecode (identityMatrixQ (3 + 1)) 3 1 [5, 6, 7]).getD (i * 3 + k) 0 =
          ([5, 6, 7] : List ℚ).getD (i * 3 + k) 0 *
              (identityMatrixQ (3 + 1)).getD (k * (3 + 1) + k) 0 +
            (identityMatrixQ (3 + 1)).getD (3 * (3 + 1) + k) 0) ∧
      (identityMatrixQ (3 + 1) = identityMatrixQ (3 + 1) →
        quantizeDecode (identityMatrixQ (3 + 1)) 3 1 [5, 6, 7] = [5, 6, 7])) :=
  ⟨by decide,
   quantized_decode_spec [⟨0, 0, 5121, some "VEC3", 1, some (identityMatrixQ (3 + 1)), none, none⟩]
     [[5, 6, 7]] 0 false ⟨0, 0, 5121, some "VEC3", 1, some (identityMatrixQ (3 + 1)), none, none⟩
     "VEC3" 3 (identityMatrixQ (3 + 1)) [5, 6, 7] [5, 6, 7]
     rfl rfl rfl rfl (by decide) rfl (by decide)⟩

/-- Helper: entry `i*3+k` of the renormalized weight buffer is the `k`-th of
the three stored quotients of vertex `i`. -/
theorem renormalizeWeights_getD (et : EType) (arr : List ℚ) (count i k : ℕ)
    (hi : i < count) (hk : k < 3) :
    (renormalizeWeights et arr count).getD (i * 3 + k) 0 =
      [storeCoerce et (arr.getD (i * 4) 0 /
          (arr.getD (i * 4) 0 + arr.getD (i * 4 + 1) 0 + arr.getD (i * 4 + 2) 0 +
            arr.getD (i * 4 + 3) 0)),
       storeCoerce et (arr.getD (i * 4 + 1) 0 /
          (arr.getD (i * 4) 0 + arr.getD (i * 4 + 1) 0 + arr.getD (i * 4 + 2) 0 +
            arr.getD (i * 4 + 3) 0)),
       storeCoerce et (arr.getD (i * 4 + 2) 0 /
          (arr.getD (i * 4) 0 + arr.getD (i * 4 + 1) 0 + arr.getD (i * 4 + 2) 0 +
            arr.getD (i * 4 + 3) 0))].getD k 0 := by
  rw [renormalizeWeights]
  refine flatMap_blocks_getD 3 _ 0 ?_ count i k hi hk
  intro j
  rfl

/-- C6: a primitive carrying a 4-component WEIGHTS_0 attribute is not
assembled at all — the store into `geometry.attributes.weight` throws,
because the assembler's geometry object only has position/normal/uv slots —
while the renormalization arithmetic the branch computes does store
`w1/S, w2/S, w3/S` (for float-typed weight arrays) with
`1 - (sum of stored) = w4/S` exactly, as the claim describes. -/
theorem weights_renormalization_spec :
    (assemblePrimitive [⟨0, 0, 5121, some "VEC4", 1, none, none, none⟩] [[128, 127, 0, 0]] 0 0
        ⟨[("WEIGHTS_0", 0)], none, none, false⟩ =
      .error "TypeError: geometry.attributes.weight is undefined") ∧
    (∀ (arr : List ℚ) (count i : ℕ),
      i < count →
      0 ≤ arr.getD (i * 4) 0 → 0 ≤ arr.getD (i * 4 + 1) 0 →
      0 ≤ arr.getD (i * 4 + 2) 0 → 0 ≤ arr.getD (i * 4 + 3) 0 →
      0 < arr.getD (i * 4) 0 + arr.getD (i * 4 + 1) 0 + arr.getD (i * 4 + 2) 0 +
        arr.getD (i * 4 + 3) 0 →
      (renormalizeWeights EType.float32 arr count).getD (i * 3) 0 =
          arr.getD (i * 4) 0 /
            (arr.getD (i * 4) 0 + arr.getD (i * 4 + 1) 0 + arr.getD (i * 4 + 2) 0 +
              arr.getD (i * 4 + 3) 0) ∧
      (renormalizeWeights EType.float32 arr count).getD (i * 3 + 1) 0 =
          arr.getD (i * 4 + 1) 0 /
            (arr.getD (i * 4) 0 + arr.getD (i * 4 + 1) 0 + arr.getD (i * 4 + 2) 0 +
              arr.getD (i * 4 + 3) 0) ∧
      (renormalizeWeights EType.float32 arr count).getD (i * 3 + 2) 0 =
          arr.getD (i * 4 + 2) 0 /
            (arr.getD (i * 4) 0 + arr.getD (i * 4 + 1) 0 + arr.getD (i * 4 + 2) 0 +
              arr.getD (i * 4 + 3) 0) ∧
      1 - ((renormalizeWeights EType.float32 arr count).getD (i * 3) 0 +
            (renormalizeWeights EType.float32 arr count).getD (i * 3 + 1) 0 +
            (renormalizeWeights EType.float32 arr count).getD (i * 3 + 2) 0) =
          arr.getD (i * 4 + 3) 0 /
            (arr.getD (i * 4) 0 + arr.getD (i * 4 + 1) 0 + arr.getD (i * 4 + 2) 0 +
              arr.getD (i * 4 + 3) 0)) := by
  constructor
  · decide
  · intro arr count i hi hw1 hw2 hw3 hw4 hS
    have hS0 : arr.getD (i * 4) 0 + arr.getD (i * 4 + 1) 0 + arr.getD (i * 4 + 2) 0 +
        arr.getD (i * 4 + 3) 0 ≠ 0 := ne_of_gt hS
    have h0 := renormalizeWeights_getD EType.float32 arr count i 0 hi (by omega)
    have h1 := renormalizeWeights_getD EType.float32 arr count i 1 hi (by omega)
    have h2 := renormalizeWeights_getD EType.float32 arr count i 2 hi (by omega)
    rw [Nat.add_zero] at h0
    simp only [List.getD_cons_zero, List.getD_cons_succ, storeCoerce] at h0 h1 h2
    refine ⟨h0, h1, h2, ?_⟩
    rw [h0, h1, h2]
    set w1 := arr.getD (i * 4) 0
    set w2 := arr.getD (i * 4 + 1) 0
    set w3 := arr.getD (i * 4 + 2) 0
    set w4 := arr.getD (i * 4 + 3) 0
    field_simp

/-- C6 witness: the renormalization part of the theorem applied to the float
weights `[1, 2, 3, 4]` (sum 10). -/
theorem weights_renormalization_spec_witness :
    (0 : ℕ) < 1 ∧
    (renormalizeWeights EType.float32 [1, 2, 3, 4] 1).getD (0 * 3) 0 =
      ([1, 2, 3, 4] : List ℚ).getD (0 * 4) 0 /
        (([1, 2, 3, 4] : List ℚ).getD (0 * 4) 0 + ([1, 2, 3, 4] : List ℚ).getD (0 * 4 + 1) 0 +
          ([1, 2, 3, 4] : List ℚ).getD (0 * 4 + 2) 0 +
          ([1, 2, 3, 4] : List ℚ).getD (0 * 4 + 3) 0) ∧
    1 - ((renormalizeWeights EType.float32 [1, 2, 3, 4] 1).getD (0 * 3) 0 +
          (renormalizeWeights EType.float32 [1, 2, 3, 4] 1).getD (0 * 3 + 1) 0 +
          (renormalizeWeights EType.float32 [1, 2, 3, 4] 1).getD (0 * 3 + 2) 0) =
      ([1, 2, 3, 4] : List ℚ).getD (0 * 4 + 3) 0 /
        (([1, 2, 3, 4] : List ℚ).getD (0 * 4) 0 + ([1, 2, 3, 4] : List ℚ).getD (0 * 4 + 1) 0 +
          ([1, 2, 3, 4] : List ℚ).getD (0 * 4 + 2) 0 +
          ([1, 2, 3, 4] : List ℚ).getD (0 * 4 + 3) 0) :=
  ⟨by decide,
   (weights_renormalization_spec.2 [1, 2, 3, 4] 1 0 (by decide) (by decide) (by decide)
     (by decide) (by decide) (by norm_num)).1,
   (weights_renormalization_spec.2 [1, 2, 3, 4] 1 0 (by decide) (by decide) (by decide)
     (by decide) (by decide) (by norm_num)).2.2.2⟩

/-- Helper: normalising the unit z vector gives the unit z vector. -/
theorem glNormalize_unitZ : glNormalize (0, 0, 1) = ((0 : ℝ), (0 : ℝ), (1 : ℝ)) := by
  rw [glNormalize]
  norm_num [Real.sqrt_one]

/-- C1: `generateVertexNormals` accumulates, for every triangle face (from
the index buffer when present, else sequential vertex triples), the face
vector `cross(p1 - p2, p2 - p3)` into each of the face's three vertex
accumulators (counted per occurrence), then normalises each vertex's
accumulated vector; for the unshared triangle `(0,0,0),(1,0,0),(0,1,0)` the
resulting normal at every vertex is `(0,0,1)`. -/
theorem vertex_normals_spec :
    (∀ (positions : List ℚ) (indices : Option (List ℕ)),
      positions.length / 3 ≠ 0 →
      ∃ f, generateVertexNormals positions 3 indices = some f ∧
        ∀ v : ℕ, f v = glNormalize
          (((facesFrom (faceIndexList indices (positions.length / 3))).map
            fun t => occCount v t • faceNormal positions t).sum)) ∧
    (∃ f, generateVertexNormals [0, 0, 0, 1, 0, 0, 0, 1, 0] 3 none = some f ∧
      f 0 = ((0 : ℝ), (0 : ℝ), (1 : ℝ)) ∧ f 1 = ((0 : ℝ), (0 : ℝ), (1 : ℝ)) ∧
      f 2 = ((0 : ℝ), (0 : ℝ), (1 : ℝ))) := by
  have hzero : ((0, 0, 0) : Vec3) = 0 := rfl
  constructor
  · intro positions indices h
    rw [generateVertexNormals]
    rw [if_neg h]
    refine ⟨_, rfl, ?_⟩
    intro v
    rw [vertexNormalAccum, accumFacesWith_apply, hzero, zero_add]
  · refine ⟨fun v => glNormalize (vertexNormalAccum [0, 0, 0, 1, 0, 0, 0, 1, 0] none 3 v),
      ?_, ?_, ?_, ?_⟩
    · rfl
    · show glNormalize (vertexNormalAccum [0, 0, 0, 1, 0, 0, 0, 1, 0] none 3 0) = _
      have hacc : vertexNormalAccum [0, 0, 0, 1, 0, 0, 0, 1, 0] none 3 0 = (0, 0, 1) := by
        rw [vertexNormalAccum, (by decide : facesFrom (faceIndexList none 3) = [(0, 1, 2)])]
        simp [accumFacesWith, addAt, faceNormal, posAt, cross3, Prod.ext_iff]
      rw [hacc]
      exact glNormalize_unitZ
    · show glNormalize (vertexNormalAccum [0, 0, 0, 1, 0, 0, 0, 1, 0] none 3 1) = _
      have hacc : vertexNormalAccum [0, 0, 0, 1, 0, 0, 0, 1, 0] none 3 1 = (0, 0, 1) := by
        rw [vertexNormalAccum, (by decide : facesFrom (faceIndexList none 3) = [(0, 1, 2)])]
        simp [accumFacesWith, addAt, faceNormal, posAt, cross3, Prod.ext_iff]
      rw [hacc]
      exact glNormalize_unitZ
    · show glNormalize (vertexNormalAccum [0, 0, 0, 1, 0, 0, 0, 1, 0] none 3 2) = _
      have hacc : vertexNormalAccum [0, 0, 0, 1, 0, 0, 0, 1, 0] none 3 2 = (0, 0, 1) := by
        rw [vertexNormalAccum, (by decide : facesFrom (faceIndexList none 3) = [(0, 1, 2)])]
        simp [accumFacesWith, addAt, faceNormal, posAt, cross3, Prod.ext_iff]
      rw [hacc]
      exact glNormalize_unitZ

/-- C1 witness: the accumulation characterisation applied to the concrete
triangle geometry. -/
theorem vertex_normals_spec_witness :
    ([0, 0, 0, 1, 0, 0, 0, 1, 0] : List ℚ).length / 3 ≠ 0 ∧
    (∃ f, generateVertexNormals [0, 0, 0, 1, 0, 0, 0, 1, 0] 3 none = some f ∧
      ∀ v : ℕ, f v = glNormalize
        (((facesFrom (faceIndexList none
            (([0, 0, 0, 1, 0, 0, 0, 1, 0] : List ℚ).length / 3))).map
          fun t => occCount v t • faceNormal [0, 0, 0, 1, 0, 0, 0, 1, 0] t).sum)) :=
  ⟨by decide, vertex_normals_spec.1 [0, 0, 0, 1, 0, 0, 0, 1, 0] none (by decide)⟩

/-- Helper: the Gram-Schmidt step makes the tangent orthogonal to a unit
normal, exactly. -/
theorem dot3_gram_schmidt (n t : Vec3) (h : dot3 n n = 1) :
    dot3 n (t - dot3 n t • n) = 0 := by
  rcases n with ⟨n1, n2, n3⟩
  rcases t with ⟨t1, t2, t3⟩
  simp only [dot3] at h ⊢
  simp only [Prod.mk_sub_mk, Prod.smul_mk, smul_eq_mul]
  linear_combination (-(n1 * t1 + n2 * t2 + n3 * t3)) * h

/-- Helper: gl-matrix normalisation only rescales, preserving orthogonality
over the reals. -/
theorem dot3R_glNormalize (n tmp : Vec3) (h : dot3 n tmp = 0) :
    dot3R (ratVec n) (glNormalize tmp) = 0 := by
  rcases n with ⟨n1, n2, n3⟩
  rcases tmp with ⟨u1, u2, u3⟩
  simp only [dot3] at h
  have hc : (n1 : ℝ) * (u1 : ℝ) + (n2 : ℝ) * (u2 : ℝ) + (n3 : ℝ) * (u3 : ℝ) = 0 := by
    exact_mod_cast congrArg (fun q : ℚ => (q : ℝ)) h
  simp only [glNormalize, dot3R, ratVec]
  have hfac : ∀ L : ℝ,
      (n1 : ℝ) * ((u1 : ℝ) * L) + (n2 : ℝ) * ((u2 : ℝ) * L) + (n3 : ℝ) * ((u3 : ℝ) * L) =
        ((n1 : ℝ) * (u1 : ℝ) + (n2 : ℝ) * (u2 : ℝ) + (n3 : ℝ) * (u3 : ℝ)) * L := by
    intro L
    ring
  rw [hfac, hc, zero_mul]

/-- C8: `generateTangents` as written throws a `TypeError` for every geometry
that passes the vertex-count guard (the body reads `this.attributes` with
`this` undefined) and so never produces a tangent attribute; the algorithm
its body was meant to implement (`intendedTangentAt`, the claygl source with
the `this`/`.value` slips repaired) writes 4 components per vertex whose xyz
part is the Gram-Schmidt-orthogonalised accumulated tangent — orthogonal over
the reals to any unit vertex normal — and whose 4th component is exactly +1
or -1, the sign of `dot(cross(normal, tangent), bitangent)`. -/
theorem tangents_spec :
    (∀ g : Geometry, vertexCountOf g ≠ 0 →
      generateTangents g =
        .error "TypeError: cannot read attributes of undefined (this is undefined)") ∧
    (∀ (positions texcoords normals : List ℚ) (indices : Option (List ℕ)) (nVertex i : ℕ),
      ((intendedTangentAt positions texcoords normals indices nVertex i).2 = 1 ∨
        (intendedTangentAt positions texcoords normals indices nVertex i).2 = -1) ∧
      (dot3 (posAt normals i) (posAt normals i) = 1 →
        dot3R (ratVec (posAt normals i))
          (intendedTangentAt positions texcoords normals indices nVertex i).1 = 0)) ∧
    (∀ (positions texcoords normals : List ℚ) (indices : Option (List ℕ)) (nVertex : ℕ),
      (intendedTangentArray positions texcoords normals indices nVertex).length =
        4 * nVertex) := by
  refine ⟨?_, ?_, ?_⟩
  · intro g h
    rw [generateTangents, if_neg h]
  · intro positions texcoords normals indices nVertex i
    constructor
    · simp only [intendedTangentAt]
      split_ifs
      · exact Or.inr rfl
      · exact Or.inl rfl
    · intro hunit
      simp only [intendedTangentAt]
      exact dot3R_glNormalize _ _ (dot3_gram_schmidt _ _ hunit)
  · intro positions texcoords normals indices nVertex
    rw [intendedTangentArray]
    rw [show (4 * nVertex) = nVertex * 4 by ring]
    refine flatMap_blocks_length 4 _ ?_ nVertex
    intro i
    rfl

/-- C8 witness: the theorem applied to a unit quad with axis-aligned UVs
(two indexed triangles, all vertex normals `(0,0,1)`). -/
theorem tangents_spec_witness :
    vertexCountOf ⟨⟨some [0, 0, 0, 1, 0, 0, 1, 1, 0, 0, 1, 0], 3⟩, ⟨none, 3⟩,
        ⟨some [0, 0, 1, 0, 1, 1, 0, 1], 2⟩, some [0, 1, 2, 0, 2, 3]⟩ ≠ 0 ∧
    generateTangents ⟨⟨some [0, 0, 0, 1, 0, 0, 1, 1, 0, 0, 1, 0], 3⟩, ⟨none, 3⟩,
        ⟨some [0, 0, 1, 0, 1, 1, 0, 1], 2⟩, some [0, 1, 2, 0, 2, 3]⟩ =
      .error "TypeError: cannot read attributes of undefined (this is undefined)" ∧
    dot3 (posAt [0, 0, 1, 0, 0, 1, 0, 0, 1, 0, 0, 1] 0)
      (posAt [0, 0, 1, 0, 0, 1, 0, 0, 1, 0, 0, 1] 0) = 1 ∧
    ((intendedTangentAt [0, 0, 0, 1, 0, 0, 1, 1, 0, 0, 1, 0] [0, 0, 1, 0, 1, 1, 0, 1]
        [0, 0, 1, 0, 0, 1, 0, 0, 1, 0, 0, 1] (some [0, 1, 2, 0, 2, 3]) 4 0).2 = 1 ∨
      (intendedTangentAt [0, 0, 0, 1, 0, 0, 1, 1, 0, 0, 1, 0] [0, 0, 1, 0, 1, 1, 0, 1]
        [0, 0, 1, 0, 0, 1, 0, 0, 1, 0, 0, 1] (some [0, 1, 2, 0, 2, 3]) 4 0).2 = -1) ∧
    dot3R (ratVec (posAt [0, 0, 1, 0, 0, 1, 0, 0, 1, 0, 0, 1] 0))
      (intendedTangentAt [0, 0, 0, 1, 0, 0, 1, 1, 0, 0, 1, 0] [0, 0, 1, 0, 1, 1, 0, 1]
        [0, 0, 1, 0, 0, 1, 0, 0, 1, 0, 0, 1] (some [0, 1, 2, 0, 2, 3]) 4 0).1 = 0 :=
  ⟨by decide,
   tangents_spec.1 _ (by decide),
   by norm_num [dot3, posAt],
   (tangents_spec.2.1 [0, 0, 0, 1, 0, 0, 1, 1, 0, 0, 1, 0] [0, 0, 1, 0, 1, 1, 0, 1]
     [0, 0, 1, 0, 0, 1, 0, 0, 1, 0, 0, 1] (some [0, 1, 2, 0, 2, 3]) 4 0).1,
   (tangents_spec.2.1 [0, 0, 0, 1, 0, 0, 1, 1, 0, 0, 1, 0] [0, 0, 1, 0, 1, 1, 0, 1]
     [0, 0, 1, 0, 0, 1, 0, 0, 1, 0, 0, 1] (some [0, 1, 2, 0, 2, 3]) 4 0).2
     (by norm_num [dot3, posAt])⟩
